import Mathlib

/- Verification development for the fce multi-module WebAssembly compute
engine. The definitions below are a shallow embedding of the engine source:
the adapter-instruction generator (crates/wit-generator), the ABI helper
descriptor table (default_export_api_config.rs), the module invocation path
(src/vm/module/fce_module.rs and frank_module.rs), the state-hash
diagnostic, the logger host import, and the module-interface cache of
fluence-faas/src/faas.rs. Machine integers are modelled as Nat; linear
memory is a list of byte values; fallible operations return Option. -/

namespace Fce

/-- Interface types of the engine value universe (spec section 3). The ABI
helper descriptors of default_export_api_config.rs only use the `i32` case;
the remaining cases are listed for the signature tables. -/
inductive IType where
  | s8 | s16 | s32 | s64
  | u8 | u16 | u32 | u64
  | f32 | f64
  | str | byteArray
  | i32 | i64
  | record (recordId : Nat)
  deriving DecidableEq, Repr

/-- One named argument of a function signature, as in IFunctionArg. -/
structure IFunctionArg where
  name : String
  ty : IType
  deriving DecidableEq, Repr

/-- Descriptor of one ABI helper export, from default_export_api_config.rs. -/
structure ApiExportFuncDescriptor where
  name : String
  id : Nat
  arguments : List IFunctionArg
  output_types : List IType
  deriving DecidableEq, Repr

/-- The allocate helper descriptor (id 0). -/
def ALLOCATE_FUNC : ApiExportFuncDescriptor :=
  { name := "allocate"
    id := 0
    arguments := [{ name := "size", ty := IType.i32 }]
    output_types := [IType.i32] }

/-- The deallocate helper descriptor (id 1). -/
def DEALLOCATE_FUNC : ApiExportFuncDescriptor :=
  { name := "deallocate"
    id := 1
    arguments := [{ name := "pointer", ty := IType.i32 },
                  { name := "size", ty := IType.i32 }]
    output_types := [] }

/-- The get_result_size helper descriptor (id 2). -/
def GET_RESULT_SIZE_FUNC : ApiExportFuncDescriptor :=
  { name := "get_result_size"
    id := 2
    arguments := []
    output_types := [IType.i32] }

/-- The get_result_ptr helper descriptor (id 3). -/
def GET_RESULT_PTR_FUNC : ApiExportFuncDescriptor :=
  { name := "get_result_ptr"
    id := 3
    arguments := []
    output_types := [IType.i32] }

/-- The set_result_size helper descriptor (id 4). -/
def SET_RESULT_SIZE_FUNC : ApiExportFuncDescriptor :=
  { name := "set_result_size"
    id := 4
    arguments := [{ name := "result_size", ty := IType.i32 }]
    output_types := [] }

/-- The set_result_ptr helper descriptor (id 5). -/
def SET_RESULT_PTR_FUNC : ApiExportFuncDescriptor :=
  { name := "set_result_ptr"
    id := 5
    arguments := [{ name := "result_ptr", ty := IType.i32 }]
    output_types := [] }

/-- Adapter instructions emitted by the generator (the subset of
wasmer_wit::interpreter::Instruction that fn_instructions.rs produces). -/
inductive Instruction where
  | argumentGet (index : Nat)
  | i32FromS8
  | i32FromS16
  | i32FromU8
  | i32FromU16
  | i32FromU32
  | i64FromU64
  | s8FromI32
  | s16FromI32
  | u8FromI32
  | u16FromI32
  | u32FromI32
  | u64FromI64
  | stringSize
  | byteArraySize
  | stringLowerMemory
  | byteArrayLowerMemory
  | stringLiftMemory
  | byteArrayLiftMemory
  | callCore (functionIndex : Nat)
  deriving DecidableEq, Repr

/-- Rust-side parsed types handled by the generator match arms of
fn_instructions.rs. Variants that the source sends to its catch-all
panicking arm are omitted from the embedding. -/
inductive ParsedType where
  | i8 | i16 | i32 | i64
  | u8 | u16 | u32 | u64
  | f32 | f64
  | utf8String
  | byteVector
  deriving DecidableEq, Repr

/-- Embedding of generate_instructions_for_input_type: the per-argument
instruction sequence emitted for an argument of the given type at the
given position. -/
def generate_instructions_for_input_type : ParsedType → Nat → List Instruction
  | ParsedType.i8, index => [Instruction.argumentGet index, Instruction.i32FromS8]
  | ParsedType.i16, index => [Instruction.argumentGet index, Instruction.i32FromS16]
  | ParsedType.i32, index => [Instruction.argumentGet index]
  | ParsedType.i64, index => [Instruction.argumentGet index]
  | ParsedType.u8, index => [Instruction.argumentGet index, Instruction.i32FromU8]
  | ParsedType.u16, index => [Instruction.argumentGet index, Instruction.i32FromU16]
  | ParsedType.u32, index => [Instruction.argumentGet index, Instruction.i32FromU32]
  | ParsedType.u64, index => [Instruction.argumentGet index, Instruction.i64FromU64]
  | ParsedType.f32, index => [Instruction.argumentGet index]
  | ParsedType.f64, index => [Instruction.argumentGet index]
  | ParsedType.utf8String, index =>
      [Instruction.argumentGet index,
       Instruction.stringSize,
       Instruction.callCore ALLOCATE_FUNC.id,
       Instruction.argumentGet index,
       Instruction.stringLowerMemory]
  | ParsedType.byteVector, index =>
      [Instruction.argumentGet index,
       Instruction.byteArraySize,
       Instruction.callCore ALLOCATE_FUNC.id,
       Instruction.argumentGet index,
       Instruction.byteArrayLowerMemory]

/-- Embedding of generate_instructions_for_output_type: the epilogue
instruction sequence emitted for an output of the given type. -/
def generate_instructions_for_output_type : ParsedType → List Instruction
  | ParsedType.i8 => [Instruction.s8FromI32]
  | ParsedType.i16 => [Instruction.s16FromI32]
  | ParsedType.i32 => []
  | ParsedType.i64 => []
  | ParsedType.u8 => [Instruction.u8FromI32]
  | ParsedType.u16 => [Instruction.u16FromI32]
  | ParsedType.u32 => [Instruction.u32FromI32]
  | ParsedType.u64 => [Instruction.u64FromI64]
  | ParsedType.f32 => []
  | ParsedType.f64 => []
  | ParsedType.utf8String =>
      [Instruction.callCore GET_RESULT_PTR_FUNC.id,
       Instruction.callCore GET_RESULT_SIZE_FUNC.id,
       Instruction.stringLiftMemory,
       Instruction.callCore GET_RESULT_PTR_FUNC.id,
       Instruction.callCore GET_RESULT_SIZE_FUNC.id,
       Instruction.callCore DEALLOCATE_FUNC.id]
  | ParsedType.byteVector =>
      [Instruction.callCore GET_RESULT_PTR_FUNC.id,
       Instruction.callCore GET_RESULT_SIZE_FUNC.id,
       Instruction.byteArrayLiftMemory,
       Instruction.callCore GET_RESULT_PTR_FUNC.id,
       Instruction.callCore GET_RESULT_SIZE_FUNC.id,
       Instruction.callCore DEALLOCATE_FUNC.id]

/-- Function indices of all CallCore instructions in a sequence. -/
def callCoreIndices (instructions : List Instruction) : List Nat :=
  instructions.filterMap fun i =>
    match i with
    | Instruction.callCore functionIndex => some functionIndex
    | _ => none

/-- Events observable at the module ABI boundary during one host-side
invocation: guest allocate calls, host writes into guest memory, the core
invoke entry call, and guest deallocate calls. -/
inductive AbiEvent where
  | alloc (size ptr : Nat)
  | write (address : Nat) (value : List Nat)
  | invokeCall (argAddress argSize : Nat)
  | dealloc (ptr size : Nat)
  deriving DecidableEq, Repr

/-- The (size, ptr) pairs of all allocate events of a trace. -/
def allocEvents (events : List AbiEvent) : List (Nat × Nat) :=
  events.filterMap fun e =>
    match e with
    | AbiEvent.alloc size ptr => some (size, ptr)
    | _ => none

/-- The (ptr, size) pairs of all deallocate events of a trace. -/
def deallocEvents (events : List AbiEvent) : List (Nat × Nat) :=
  events.filterMap fun e =>
    match e with
    | AbiEvent.dealloc ptr size => some (ptr, size)
    | _ => none

/-- The addresses of all host memory-write events of a trace. -/
def writeEvents (events : List AbiEvent) : List Nat :=
  events.filterMap fun e =>
    match e with
    | AbiEvent.write address _ => some address
    | _ => none

/-- The result-size loop of read_result_from_mem: the four bytes at the
given address are folded with a bitwise or of each byte shifted left by
eight times its index, a little-endian read. -/
def read_result_size (mem : List Nat) (address : Nat) : Nat :=
  (List.range 4).foldl
    (fun acc byteId => acc ||| (mem.getD (address + byteId) 0) <<< (8 * byteId)) 0

/-- Embedding of read_result_from_mem: read the 4-byte length at `address`,
then the payload bytes at `address + 4`. The slice indexing of the source
panics when a range leaves the memory; that is modelled as `none`. -/
def read_result_from_mem (mem : List Nat) (address : Nat) : Option (List Nat) :=
  if address + 4 ≤ mem.length then
    let result_size := read_result_size mem address
    if address + 4 + result_size ≤ mem.length then
      some ((mem.drop (address + 4)).take result_size)
    else none
  else none

/-- Abstract guest module behaviour seen through the ABI handles: the
pointer returned by the guest allocate export for a requested size, the
result address returned by the guest invoke entry point, and the linear
memory as the guest leaves it when invoke returns (a function of the
argument address, argument length and argument bytes). -/
structure Guest where
  allocate : Nat → Nat
  invokeRet : Nat → Nat → Nat
  memAfter : Nat → Nat → List Nat → List Nat

/-- The argument address computed by ModuleAPI::invoke: the pointer from a
guest allocate call when the argument is non-empty, zero otherwise. -/
def invokeArgAddress (g : Guest) (argument : List Nat) : Nat :=
  if argument.length ≠ 0 then g.allocate argument.length else 0

/-- The guest linear memory at the time the host reads the result back. -/
def invokeMem (g : Guest) (argument : List Nat) : List Nat :=
  g.memAfter (invokeArgAddress g argument) argument.length argument

/-- The result address returned by the guest invoke entry point. -/
def invokeResultAddress (g : Guest) (argument : List Nat) : Nat :=
  g.invokeRet (invokeArgAddress g argument) argument.length

/-- Embedding of ModuleAPI::invoke from fce_module.rs and frank_module.rs:
allocate and fill an argument buffer when the argument is non-empty (the
buffer is handed to the guest and never freed by the host), call the core
invoke entry, read the length-prefixed result, and deallocate the result
buffer with the payload length. The returned trace lists the ABI events in
program order. -/
def moduleInvoke (g : Guest) (argument : List Nat) : Option (List Nat × List AbiEvent) :=
  let argument_len := argument.length
  let prologue : Nat × List AbiEvent :=
    if argument_len ≠ 0 then
      let address := g.allocate argument_len
      (address, [AbiEvent.alloc argument_len address, AbiEvent.write address argument])
    else
      (0, [])
  let argument_address := prologue.1
  let mem := g.memAfter argument_address argument_len argument
  let result_address := g.invokeRet argument_address argument_len
  match read_result_from_mem mem result_address with
  | some result =>
      some (result,
        prologue.2 ++
          [AbiEvent.invokeCall argument_address argument_len,
           AbiEvent.dealloc result_address result.length])
  | none => none

/-- Modelled from the spec: the guest (whose code is outside this
repository) materialises its invocation result as one allocated buffer
holding a 4-byte little-endian length prefix followed by the payload, the
layout read back by read_result_from_mem; the allocation that produced the
buffer at the result address therefore has the size of the whole prefixed
buffer, payload length plus four. -/
def guestResultAllocSize (mem : List Nat) (resultAddress : Nat) : Nat :=
  read_result_size mem resultAddress + 4

/-- WasmPtr deref of the wasmer runtime: a view of `len` cells starting at
the pointer offset plus `index`, available only when the range lies inside
the memory. -/
def wasmPtrDeref (mem : List Nat) (offset index len : Nat) : Option (List Nat) :=
  if offset + index + len ≤ mem.length then
    some ((mem.drop (offset + index)).take len)
  else
    none

/-- Bytes fed to sha2::Sha256 by compute_state_hash: a deref at pointer
offset 0 and index 0 with length equal to the memory size minus one. -/
def computeStateHashInput (mem : List Nat) : Option (List Nat) :=
  wasmPtrDeref mem 0 0 (mem.length - 1)

/-- UTF-8 decoder over byte values, with the validity ranges of Rust
str::from_utf8 (the check behind WasmPtr::get_utf8_string): no overlong
encodings, no surrogate code points, nothing above 0x10FFFF. Returns the
decoded characters, or none for malformed input. -/
def utf8Decode : List Nat → Option (List Char)
  | [] => some []
  | b0 :: rest =>
    if b0 < 0x80 then
      (utf8Decode rest).map (fun cs => Char.ofNat b0 :: cs)
    else if 0xC2 ≤ b0 ∧ b0 ≤ 0xDF then
      match rest with
      | b1 :: rest1 =>
        if 0x80 ≤ b1 ∧ b1 ≤ 0xBF then
          (utf8Decode rest1).map (fun cs =>
            Char.ofNat ((b0 - 0xC0) * 0x40 + (b1 - 0x80)) :: cs)
        else none
      | [] => none
    else if 0xE0 ≤ b0 ∧ b0 ≤ 0xEF then
      match rest with
      | b1 :: b2 :: rest2 =>
        if (if b0 = 0xE0 then 0xA0 else 0x80) ≤ b1 ∧
            b1 ≤ (if b0 = 0xED then 0x9F else 0xBF) ∧
            0x80 ≤ b2 ∧ b2 ≤ 0xBF then
          (utf8Decode rest2).map (fun cs =>
            Char.ofNat ((b0 - 0xE0) * 0x1000 + (b1 - 0x80) * 0x40 + (b2 - 0x80)) :: cs)
        else none
      | _ => none
    else if 0xF0 ≤ b0 ∧ b0 ≤ 0xF4 then
      match rest with
      | b1 :: b2 :: b3 :: rest3 =>
        if (if b0 = 0xF0 then 0x90 else 0x80) ≤ b1 ∧
            b1 ≤ (if b0 = 0xF4 then 0x8F else 0xBF) ∧
            0x80 ≤ b2 ∧ b2 ≤ 0xBF ∧ 0x80 ≤ b3 ∧ b3 ≤ 0xBF then
          (utf8Decode rest3).map (fun cs =>
            Char.ofNat ((b0 - 0xF0) * 0x40000 + (b1 - 0x80) * 0x1000 +
              (b2 - 0x80) * 0x40 + (b3 - 0x80)) :: cs)
        else none
      | _ => none
    else none

/-- Embedding of WasmPtr::get_utf8_string of the wasmer runtime: the `size`
bytes at `offset` when they lie inside the memory and decode as UTF-8. -/
def get_utf8_string (mem : List Nat) (offset size : Nat) : Option String :=
  if offset + size ≤ mem.length then
    (utf8Decode ((mem.drop offset).take size)).map (fun cs => String.mk cs)
  else
    none

/-- The fixed replacement message printed by the fce logger import when the
supplied bytes are not a valid UTF-8 string. -/
def loggerErrorMessage : String :=
  "fce logger: incorrect UTF8 string\x27s been supplied to logger"

/-- Embedding of logger_log_utf8_string from fce_module.rs: the text the
host import prints for the given memory, offset and size. The function is
total: it never fails, it always prints something. -/
def logger_log_utf8_string (mem : List Nat) (offset size : Nat) : String :=
  match get_utf8_string mem offset size with
  | some msg => msg
  | none => loggerErrorMessage

/-- Function signature stored in a module interface: the argument list and
the output types. -/
structure FnSig where
  arguments : List IFunctionArg
  outputs : List IType
  deriving DecidableEq, Repr

/-- Record-type table of a module: record id to ordered field list. -/
abbrev RecordTypes := List (Nat × List IFunctionArg)

/-- Cached per-module interface view of faas.rs: function signatures keyed
by function name, plus the record-type table. -/
structure ModuleInterface where
  function_signatures : List (String × FnSig)
  record_types : RecordTypes
  deriving DecidableEq, Repr

/-- State of FluenceFaaS relevant to interface lookup: the engine modules
keyed by module name, and the module-interface cache. -/
structure FluenceFaaS where
  fce : List (String × ModuleInterface)
  module_interfaces_cache : List (String × ModuleInterface)
  deriving DecidableEq, Repr

/-- Errors surfaced by lookup_module_interface. -/
inductive FaaSError where
  | noSuchModule (name : String)
  | missingFunctionError (name : String)
  deriving DecidableEq, Repr

/-- Embedding of FluenceFaaS::lookup_module_interface: the cache is read
with the module name; on a cache miss the interface is fetched from the
engine, the requested function is resolved, and only then is the interface
inserted into the cache, keyed by the function name exactly as in the
source. Returns the outcome together with the updated state. -/
def lookup_module_interface (s : FluenceFaaS) (module_name func_name : String) :
    Except FaaSError (FnSig × RecordTypes) × FluenceFaaS :=
  match s.module_interfaces_cache.lookup module_name with
  | some module_interface =>
    match module_interface.function_signatures.lookup func_name with
    | some f => (Except.ok (f, module_interface.record_types), s)
    | none => (Except.error (FaaSError.missingFunctionError func_name), s)
  | none =>
    match s.fce.lookup module_name with
    | none => (Except.error (FaaSError.noSuchModule module_name), s)
    | some module_interface =>
      match module_interface.function_signatures.lookup func_name with
      | none => (Except.error (FaaSError.missingFunctionError func_name), s)
      | some f =>
        (Except.ok (f, module_interface.record_types),
         { s with module_interfaces_cache :=
             (func_name, module_interface) :: s.module_interfaces_cache })

/-- Concrete guest used to evaluate the invocation path: the post-invoke
memory holds a result buffer at address 0 with length prefix 2 and payload
bytes 9 and 7. -/
def resultOnlyGuest : Guest :=
  { allocate := fun _ => 100
    invokeRet := fun _ _ => 0
    memAfter := fun _ _ _ => [2, 0, 0, 0, 9, 7] }

/-- Concrete guest used to evaluate the empty-argument invocation path. -/
def emptyArgGuest : Guest :=
  { allocate := fun _ => 400
    invokeRet := fun _ _ => 1
    memAfter := fun _ _ _ => [0, 3, 0, 0, 0, 8, 6, 4] }

/-- Concrete guest used to evaluate a non-empty-argument invocation. -/
def argCarryingGuest : Guest :=
  { allocate := fun _ => 6
    invokeRet := fun _ _ => 0
    memAfter := fun _ _ _ => [1, 0, 0, 0, 5, 11, 12] }

/-- Concrete faas state with one module named alpha exporting one function
named beta. -/
def sampleFaaS : FluenceFaaS :=
  { fce := [("alpha",
      { function_signatures :=
          [("beta", { arguments := [{ name := "x", ty := IType.i32 }],
                      outputs := [IType.i32] })]
        record_types := [] })]
    module_interfaces_cache := [] }

/-- C2: for every string or byte-vector argument at position `index`, the
generator emits exactly ArgumentGet; StringSize (resp. ByteArraySize);
CallCore(allocate); ArgumentGet; StringLowerMemory (resp.
ByteArrayLowerMemory), where the CallCore index is the descriptor id of the
ABI allocate helper. -/
theorem string_byte_argument_prologue (index : Nat) :
    generate_instructions_for_input_type ParsedType.utf8String index =
      [Instruction.argumentGet index,
       Instruction.stringSize,
       Instruction.callCore ALLOCATE_FUNC.id,
       Instruction.argumentGet index,
       Instruction.stringLowerMemory] ∧
    generate_instructions_for_input_type ParsedType.byteVector index =
      [Instruction.argumentGet index,
       Instruction.byteArraySize,
       Instruction.callCore ALLOCATE_FUNC.id,
       Instruction.argumentGet index,
       Instruction.byteArrayLowerMemory] ∧
    ALLOCATE_FUNC.id = 0 :=
  ⟨rfl, rfl, rfl⟩

/-- C3: for every string or byte-vector output type, the generator emits
exactly CallCore(get_result_ptr); CallCore(get_result_size);
StringLiftMemory (resp. ByteArrayLiftMemory); CallCore(get_result_ptr);
CallCore(get_result_size); CallCore(deallocate). -/
theorem string_byte_output_epilogue :
    generate_instructions_for_output_type ParsedType.utf8String =
      [Instruction.callCore GET_RESULT_PTR_FUNC.id,
       Instruction.callCore GET_RESULT_SIZE_FUNC.id,
       Instruction.stringLiftMemory,
       Instruction.callCore GET_RESULT_PTR_FUNC.id,
       Instruction.callCore GET_RESULT_SIZE_FUNC.id,
       Instruction.callCore DEALLOCATE_FUNC.id] ∧
    generate_instructions_for_output_type ParsedType.byteVector =
      [Instruction.callCore GET_RESULT_PTR_FUNC.id,
       Instruction.callCore GET_RESULT_SIZE_FUNC.id,
       Instruction.byteArrayLiftMemory,
       Instruction.callCore GET_RESULT_PTR_FUNC.id,
       Instruction.callCore GET_RESULT_SIZE_FUNC.id,
       Instruction.callCore DEALLOCATE_FUNC.id] :=
  ⟨rfl, rfl⟩

/-- C4 counterexample: the claim fails for the 32-bit signed integer type
already: its argument prologue is the bare ArgumentGet with no following
conversion instruction, and its output epilogue is empty; the same holds
for the 64-bit and float cases shown alongside. -/
theorem primitive_conversion_counterexample :
    generate_instructions_for_input_type ParsedType.i32 0 = [Instruction.argumentGet 0] ∧
    (generate_instructions_for_input_type ParsedType.i32 0).length = 1 ∧
    generate_instructions_for_output_type ParsedType.i32 = [] ∧
    generate_instructions_for_input_type ParsedType.i64 0 = [Instruction.argumentGet 0] ∧
    generate_instructions_for_input_type ParsedType.f32 0 = [Instruction.argumentGet 0] ∧
    generate_instructions_for_input_type ParsedType.f64 0 = [Instruction.argumentGet 0] ∧
    generate_instructions_for_output_type ParsedType.i64 = [] ∧
    generate_instructions_for_output_type ParsedType.f32 = [] ∧
    generate_instructions_for_output_type ParsedType.f64 = [] := by
  decide

/-- C4 amended: only the primitive types whose interface width differs from
their core representation (S8, S16, U8, U16, U32, U64) get a conversion
instruction after ArgumentGet and a width conversion as epilogue; S32, S64,
F32 and F64 get the bare ArgumentGet and an empty epilogue. -/
theorem primitive_conversion_amended (index : Nat) :
    generate_instructions_for_input_type ParsedType.i8 index =
      [Instruction.argumentGet index, Instruction.i32FromS8] ∧
    generate_instructions_for_input_type ParsedType.i16 index =
      [Instruction.argumentGet index, Instruction.i32FromS16] ∧
    generate_instructions_for_input_type ParsedType.u8 index =
      [Instruction.argumentGet index, Instruction.i32FromU8] ∧
    generate_instructions_for_input_type ParsedType.u16 index =
      [Instruction.argumentGet index, Instruction.i32FromU16] ∧
    generate_instructions_for_input_type ParsedType.u32 index =
      [Instruction.argumentGet index, Instruction.i32FromU32] ∧
    generate_instructions_for_input_type ParsedType.u64 index =
      [Instruction.argumentGet index, Instruction.i64FromU64] ∧
    generate_instructions_for_input_type ParsedType.i32 index =
      [Instruction.argumentGet index] ∧
    generate_instructions_for_input_type ParsedType.i64 index =
      [Instruction.argumentGet index] ∧
    generate_instructions_for_input_type ParsedType.f32 index =
      [Instruction.argumentGet index] ∧
    generate_instructions_for_input_type ParsedType.f64 index =
      [Instruction.argumentGet index] ∧
    generate_instructions_for_output_type ParsedType.i8 = [Instruction.s8FromI32] ∧
    generate_instructions_for_output_type ParsedType.i16 = [Instruction.s16FromI32] ∧
    generate_instructions_for_output_type ParsedType.u8 = [Instruction.u8FromI32] ∧
    generate_instructions_for_output_type ParsedType.u16 = [Instruction.u16FromI32] ∧
    generate_instructions_for_output_type ParsedType.u32 = [Instruction.u32FromI32] ∧
    generate_instructions_for_output_type ParsedType.u64 = [Instruction.u64FromI64] ∧
    generate_instructions_for_output_type ParsedType.i32 = [] ∧
    generate_instructions_for_output_type ParsedType.i64 = [] ∧
    generate_instructions_for_output_type ParsedType.f32 = [] ∧
    generate_instructions_for_output_type ParsedType.f64 = [] := by
  refine ⟨rfl, rfl, rfl, rfl, rfl, rfl, rfl, rfl, rfl, rfl,
    rfl, rfl, rfl, rfl, rfl, rfl, rfl, rfl, rfl, rfl⟩

/-- C8: the six ABI helper descriptors carry the pairwise distinct ids
0 through 5 in the order allocate, deallocate, get_result_size,
get_result_ptr, set_result_size, set_result_ptr, and every CallCore that
the per-type generators emit targets one of these descriptor ids: the
argument prologues only ever call the allocate descriptor, and the output
epilogues only call get_result_ptr, get_result_size and deallocate. -/
theorem abi_descriptor_ids_cover_callcore (t : ParsedType) (index : Nat) :
    [ALLOCATE_FUNC.id, DEALLOCATE_FUNC.id, GET_RESULT_SIZE_FUNC.id,
     GET_RESULT_PTR_FUNC.id, SET_RESULT_SIZE_FUNC.id, SET_RESULT_PTR_FUNC.id] =
      [0, 1, 2, 3, 4, 5] ∧
    (callCoreIndices (generate_instructions_for_input_type t index) = [] ∨
     callCoreIndices (generate_instructions_for_input_type t index) =
       [ALLOCATE_FUNC.id]) ∧
    (callCoreIndices (generate_instructions_for_output_type t) = [] ∨
     callCoreIndices (generate_instructions_for_output_type t) =
       [GET_RESULT_PTR_FUNC.id, GET_RESULT_SIZE_FUNC.id,
        GET_RESULT_PTR_FUNC.id, GET_RESULT_SIZE_FUNC.id,
        DEALLOCATE_FUNC.id]) := by
  refine ⟨rfl, ?_, ?_⟩ <;> cases t
  all_goals first
    | exact Or.inl rfl
    | exact Or.inr rfl

/-- C5 counterexample: on a three-byte memory the state-hash input is the
first two bytes only, so it does not cover every byte up to the memory
size. -/
theorem state_hash_counterexample :
    computeStateHashInput [1, 2, 3] = some [1, 2] ∧
    (some [1, 2] : Option (List Nat)) ≠ some [1, 2, 3] := by
  decide

/-- C5 amended: when enabled, the state-hash diagnostic hashes the readable
memory except its final byte: the SHA-256 input exists, has length equal to
the memory size minus one, and agrees with memory at every index below
size - 1. -/
theorem state_hash_covers_all_but_last (mem : List Nat) (i : Nat)
    (h : i + 1 < mem.length) :
    ∃ input, computeStateHashInput mem = some input ∧
      input.length + 1 = mem.length ∧ input.getD i 0 = mem.getD i 0 := by
  refine ⟨mem.take (mem.length - 1), ?_, ?_, ?_⟩
  · simp [computeStateHashInput, wasmPtrDeref, Nat.sub_le]
  · rw [List.length_take]
    omega
  · have hi : i < mem.length - 1 := by omega
    rw [List.getD_eq_getElem?_getD, List.getD_eq_getElem?_getD,
      List.getElem?_take_of_lt hi]

/-- C5 amended witness: the amended theorem evaluated on the concrete
three-byte memory 5, 6, 7 at index 1. -/
theorem state_hash_covers_all_but_last_witness :
    ∃ input, computeStateHashInput [5, 6, 7] = some input ∧
      input.length + 1 = 3 ∧ input.getD 1 0 = 6 := by
  have h := state_hash_covers_all_but_last [5, 6, 7] 1 (by decide)
  simpa using h

/-- C6: lookup_module_interface reads the cache with the module name but
inserts with the function name, so a successful call leaves the cache entry
for the module name unchanged; when the module was not cached before the
call, the only entry the call adds is keyed by the function name, hence for
distinct module and function names the next lookup of that module is never
a cache hit. -/
theorem cache_insert_keyed_by_func_name
    (s : FluenceFaaS) (module_name func_name : String)
    (r : FnSig × RecordTypes) (s2 : FluenceFaaS)
    (hne : module_name ≠ func_name)
    (h : lookup_module_interface s module_name func_name = (Except.ok r, s2)) :
    s2.module_interfaces_cache.lookup module_name =
      s.module_interfaces_cache.lookup module_name ∧
    (s.module_interfaces_cache.lookup module_name = none →
      ∃ mi, s.fce.lookup module_name = some mi ∧
        s2.module_interfaces_cache.lookup func_name = some mi) := by
  unfold lookup_module_interface at h
  split at h
  next mi hc =>
    split at h
    next f hf =>
      injection h with h1 h2
      subst h2
      exact ⟨rfl, fun hcontra => by rw [hc] at hcontra; cases hcontra⟩
    next hf =>
      injection h with h1 h2
      exact Except.noConfusion h1
  next hc =>
    split at h
    next he =>
      injection h with h1 h2
      exact Except.noConfusion h1
    next mi he =>
      split at h
      next hf =>
        injection h with h1 h2
        exact Except.noConfusion h1
      next f hf =>
        injection h with h1 h2
        subst h2
        refine ⟨?_, fun _ => ⟨mi, he, ?_⟩⟩
        · show List.lookup module_name ((func_name, mi) :: s.module_interfaces_cache) = _
          simp [List.lookup_cons, beq_false_of_ne hne, hc]
        · show List.lookup func_name ((func_name, mi) :: s.module_interfaces_cache) = some mi
          simp [List.lookup_cons]

/-- C6 witness: the theorem applied to the concrete faas state with module
alpha and function beta; after a successful call the cache holds no entry
for alpha. -/
theorem cache_insert_keyed_by_func_name_witness :
    (lookup_module_interface sampleFaaS ("alpha") ("beta")).2.module_interfaces_cache.lookup
        ("alpha") =
      sampleFaaS.module_interfaces_cache.lookup ("alpha") :=
  (cache_insert_keyed_by_func_name sampleFaaS ("alpha") ("beta")
    ({ arguments := [{ name := "x", ty := IType.i32 }], outputs := [IType.i32] }, [])
    (lookup_module_interface sampleFaaS ("alpha") ("beta")).2
    (by decide) rfl).1

/-- C7: the logger host import never fails: for every offset and size it
produces printed text; when the addressed range lies in memory and decodes
as UTF-8 the decoded string is printed, and otherwise (malformed UTF-8 or
an out-of-range request) the fixed error message is printed instead. -/
theorem logger_never_fails (mem : List Nat) (offset size : Nat) :
    (∀ cs, offset + size ≤ mem.length →
        utf8Decode ((mem.drop offset).take size) = some cs →
        logger_log_utf8_string mem offset size = String.mk cs) ∧
    (offset + size ≤ mem.length →
        utf8Decode ((mem.drop offset).take size) = none →
        logger_log_utf8_string mem offset size = loggerErrorMessage) ∧
    (mem.length < offset + size →
        logger_log_utf8_string mem offset size = loggerErrorMessage) := by
  refine ⟨?_, ?_, ?_⟩
  · intro cs hb hd
    simp [logger_log_utf8_string, get_utf8_string, hb, hd]
  · intro hb hd
    simp [logger_log_utf8_string, get_utf8_string, hb, hd]
  · intro hb
    have hnb : ¬ (offset + size ≤ mem.length) := by omega
    simp [logger_log_utf8_string, get_utf8_string, hnb]

/-- C7 witness: the theorem applied to a two-byte memory holding the UTF-8
bytes of the string hi, at offset 0 and size 2. -/
theorem logger_never_fails_witness :
    logger_log_utf8_string [104, 105] 0 2 = String.mk [Char.ofNat 104, Char.ofNat 105] :=
  (logger_never_fails [104, 105] 0 2).1 [Char.ofNat 104, Char.ofNat 105]
    (by decide) (by decide)

/-- A value below 2 to the k ored with a value shifted left by k bits is
their sum: the occupied bit ranges are disjoint. -/
theorem lor_shift_eq_add {a : Nat} (b k : Nat) (h : a < 2 ^ k) :
    a ||| b <<< k = b <<< k + a := by
  rw [Nat.shiftLeft_eq, Nat.lor_comm, Nat.mul_comm b (2 ^ k)]
  exact (Nat.mul_add_lt_is_or h b).symm

/-- With byte-sized cells the or-and-shift fold of read_result_from_mem is
the little-endian weighted sum of the four length bytes. -/
theorem read_result_size_eq (mem : List Nat) (address : Nat)
    (hb : ∀ i, i < 4 → mem.getD (address + i) 0 < 256) :
    read_result_size mem address =
      mem.getD address 0 + 256 * mem.getD (address + 1) 0 +
        65536 * mem.getD (address + 2) 0 + 16777216 * mem.getD (address + 3) 0 := by
  have h0 := hb 0 (by omega)
  have h1 := hb 1 (by omega)
  have h2 := hb 2 (by omega)
  have h3 := hb 3 (by omega)
  have e : read_result_size mem address =
      ((mem.getD (address + 0) 0 ||| mem.getD (address + 1) 0 <<< 8) |||
        mem.getD (address + 2) 0 <<< 16) ||| mem.getD (address + 3) 0 <<< 24 := by
    simp [read_result_size, List.range_succ]
  have p8 : (2 : Nat) ^ 8 = 256 := by norm_num
  have p16 : (2 : Nat) ^ 16 = 65536 := by norm_num
  have p24 : (2 : Nat) ^ 24 = 16777216 := by norm_num
  have s1 : mem.getD (address + 0) 0 ||| mem.getD (address + 1) 0 <<< 8 =
      mem.getD (address + 1) 0 <<< 8 + mem.getD (address + 0) 0 :=
    lor_shift_eq_add _ 8 (by omega)
  have b1 : mem.getD (address + 1) 0 <<< 8 + mem.getD (address + 0) 0 < 2 ^ 16 := by
    rw [Nat.shiftLeft_eq, p8, p16]
    have := h1
    nlinarith
  have s2 : mem.getD (address + 1) 0 <<< 8 + mem.getD (address + 0) 0 |||
      mem.getD (address + 2) 0 <<< 16 =
      mem.getD (address + 2) 0 <<< 16 +
        (mem.getD (address + 1) 0 <<< 8 + mem.getD (address + 0) 0) :=
    lor_shift_eq_add _ 16 b1
  have b2 : mem.getD (address + 2) 0 <<< 16 +
      (mem.getD (address + 1) 0 <<< 8 + mem.getD (address + 0) 0) < 2 ^ 24 := by
    rw [Nat.shiftLeft_eq, Nat.shiftLeft_eq, p8, p16, p24]
    nlinarith
  have s3 : mem.getD (address + 2) 0 <<< 16 +
      (mem.getD (address + 1) 0 <<< 8 + mem.getD (address + 0) 0) |||
      mem.getD (address + 3) 0 <<< 24 =
      mem.getD (address + 3) 0 <<< 24 +
        (mem.getD (address + 2) 0 <<< 16 +
          (mem.getD (address + 1) 0 <<< 8 + mem.getD (address + 0) 0)) :=
    lor_shift_eq_add _ 24 b2
  rw [e, s1, s2, s3]
  simp only [Nat.shiftLeft_eq, p8, p16, p24, Nat.add_zero]
  omega

/-- C9: read_result_from_mem interprets the four bytes at `address` as a
little-endian 32-bit length n and returns exactly the n bytes stored at
addresses address + 4 through address + 4 + n - 1 of the memory. -/
theorem read_result_from_mem_le_payload (mem : List Nat) (address : Nat)
    (hbytes : ∀ i, i < 4 → mem.getD (address + i) 0 < 256)
    (hbound : address + 4 + read_result_size mem address ≤ mem.length) :
    ∃ result, read_result_from_mem mem address = some result ∧
      result.length = read_result_size mem address ∧
      (∀ i, i < result.length → result.getD i 0 = mem.getD (address + 4 + i) 0) ∧
      read_result_size mem address =
        mem.getD address 0 + 256 * mem.getD (address + 1) 0 +
          65536 * mem.getD (address + 2) 0 + 16777216 * mem.getD (address + 3) 0 := by
  have hlen : address + 4 ≤ mem.length := by omega
  refine ⟨(mem.drop (address + 4)).take (read_result_size mem address), ?_, ?_, ?_,
    read_result_size_eq mem address hbytes⟩
  · simp only [read_result_from_mem]
    rw [if_pos hlen, if_pos hbound]
  · rw [List.length_take, List.length_drop]
    omega
  · intro i hi
    rw [List.length_take, List.length_drop] at hi
    have hi2 : i < read_result_size mem address := by omega
    rw [List.getD_eq_getElem?_getD, List.getD_eq_getElem?_getD,
      List.getElem?_take_of_lt hi2, List.getElem?_drop]

/-- C9 witness: the theorem applied to a concrete memory whose result block
at address 1 carries length prefix 2 and payload bytes 9 and 7. -/
theorem read_result_from_mem_le_payload_witness :
    ∃ result, read_result_from_mem [0, 2, 0, 0, 0, 9, 7] 1 = some result ∧
      result.length = read_result_size [0, 2, 0, 0, 0, 9, 7] 1 ∧
      (∀ i, i < result.length →
        result.getD i 0 = List.getD [0, 2, 0, 0, 0, 9, 7] (1 + 4 + i) 0) ∧
      read_result_size [0, 2, 0, 0, 0, 9, 7] 1 =
        List.getD [0, 2, 0, 0, 0, 9, 7] 1 0 +
          256 * List.getD [0, 2, 0, 0, 0, 9, 7] (1 + 1) 0 +
          65536 * List.getD [0, 2, 0, 0, 0, 9, 7] (1 + 2) 0 +
          16777216 * List.getD [0, 2, 0, 0, 0, 9, 7] (1 + 3) 0 :=
  read_result_from_mem_le_payload [0, 2, 0, 0, 0, 9, 7] 1
    (by decide) (by decide)

/-- A successful read_result_from_mem returns a payload whose length is the
little-endian length field at the block start. -/
theorem read_result_from_mem_some (mem : List Nat) (address : Nat) (result : List Nat)
    (h : read_result_from_mem mem address = some result) :
    result.length = read_result_size mem address := by
  simp only [read_result_from_mem] at h
  split_ifs at h with h1 h2
  · injection h with h3
    rw [← h3, List.length_take, List.length_drop]
    omega

/-- Shape of a successful invocation trace: the lifted result comes from
read_result_from_mem, and the events are the optional argument allocation
and write followed by the core invoke call and the result deallocation. -/
theorem invoke_events_shape (g : Guest) (argument result : List Nat) (events : List AbiEvent)
    (h : moduleInvoke g argument = some (result, events)) :
    read_result_from_mem (invokeMem g argument) (invokeResultAddress g argument) =
      some result ∧
    events = (if argument.length ≠ 0 then
        [AbiEvent.alloc argument.length (g.allocate argument.length),
         AbiEvent.write (g.allocate argument.length) argument]
      else []) ++
      [AbiEvent.invokeCall (invokeArgAddress g argument) argument.length,
       AbiEvent.dealloc (invokeResultAddress g argument) result.length] := by
  simp only [moduleInvoke] at h
  by_cases hA : argument.length ≠ 0
  · rw [if_pos hA] at h
    dsimp only at h
    have ea : invokeArgAddress g argument = g.allocate argument.length := by
      unfold invokeArgAddress
      rw [if_pos hA]
    have em : invokeMem g argument =
        g.memAfter (g.allocate argument.length) argument.length argument := by
      unfold invokeMem
      rw [ea]
    have er : invokeResultAddress g argument =
        g.invokeRet (g.allocate argument.length) argument.length := by
      unfold invokeResultAddress
      rw [ea]
    cases hr : read_result_from_mem
        (g.memAfter (g.allocate argument.length) argument.length argument)
        (g.invokeRet (g.allocate argument.length) argument.length) with
    | none =>
      rw [hr] at h
      cases h
    | some r =>
      rw [hr] at h
      simp only [Option.some.injEq, Prod.mk.injEq] at h
      obtain ⟨h1, h2⟩ := h
      subst h1
      subst h2
      refine ⟨by rw [em, er]; exact hr, ?_⟩
      rw [if_pos hA, ea, er]
  · rw [if_neg hA] at h
    dsimp only at h
    have ea : invokeArgAddress g argument = 0 := by
      unfold invokeArgAddress
      rw [if_neg hA]
    have em : invokeMem g argument = g.memAfter 0 argument.length argument := by
      unfold invokeMem
      rw [ea]
    have er : invokeResultAddress g argument = g.invokeRet 0 argument.length := by
      unfold invokeResultAddress
      rw [ea]
    cases hr : read_result_from_mem (g.memAfter 0 argument.length argument)
        (g.invokeRet 0 argument.length) with
    | none =>
      rw [hr] at h
      cases h
    | some r =>
      rw [hr] at h
      simp only [Option.some.injEq, Prod.mk.injEq] at h
      obtain ⟨h1, h2⟩ := h
      subst h1
      subst h2
      refine ⟨by rw [em, er]; exact hr, ?_⟩
      rw [if_neg hA, ea, er]

/-- C1 counterexample: the claim fails on the result buffer. For a guest
whose memory after invoke holds a result block at address 0 with length
prefix 2 and payload bytes 9 and 7, the host issues one deallocate of size
2 for the result buffer, while the prefixed buffer the guest allocated for
the result has size 6; the host-side trace also contains a deallocate with
no matching allocate at all. -/
theorem invoke_dealloc_size_counterexample :
    moduleInvoke resultOnlyGuest [] =
      some ([9, 7], [AbiEvent.invokeCall 0 0, AbiEvent.dealloc 0 2]) ∧
    guestResultAllocSize [2, 0, 0, 0, 9, 7] 0 = 6 ∧
    deallocEvents [AbiEvent.invokeCall 0 0, AbiEvent.dealloc 0 2] = [(0, 2)] ∧
    allocEvents [AbiEvent.invokeCall 0 0, AbiEvent.dealloc 0 2] = [] ∧
    (2 : Nat) ≠ 6 := by
  decide

/-- C1 amended: every successful top-level invocation issues exactly one
host-side deallocate, for the result buffer, whose size argument is the
payload length read from the 4-byte length prefix, which is four bytes
less than the prefixed result buffer the guest allocated; the only
host-side allocate is the argument buffer of a non-empty argument, which is
transferred to the guest and never deallocated by the host. -/
theorem invoke_allocation_balance (g : Guest) (argument result : List Nat)
    (events : List AbiEvent)
    (h : moduleInvoke g argument = some (result, events)) :
    deallocEvents events = [(invokeResultAddress g argument, result.length)] ∧
    result.length = read_result_size (invokeMem g argument) (invokeResultAddress g argument) ∧
    result.length + 4 =
      guestResultAllocSize (invokeMem g argument) (invokeResultAddress g argument) ∧
    allocEvents events =
      (if argument.length ≠ 0 then [(argument.length, g.allocate argument.length)] else []) := by
  obtain ⟨hr, he⟩ := invoke_events_shape g argument result events h
  have hlen := read_result_from_mem_some _ _ _ hr
  subst he
  refine ⟨?_, hlen, ?_, ?_⟩
  · by_cases hA : argument.length ≠ 0 <;> simp [hA, deallocEvents]
  · unfold guestResultAllocSize
    omega
  · by_cases hA : argument.length ≠ 0 <;> simp [hA, allocEvents]

/-- C1 amended witness: the amended theorem applied to a concrete guest
and the one-byte argument 42. -/
theorem invoke_allocation_balance_witness :
    deallocEvents [AbiEvent.alloc 1 6, AbiEvent.write 6 [42],
        AbiEvent.invokeCall 6 1, AbiEvent.dealloc 0 1] =
      [(invokeResultAddress argCarryingGuest [42], ([5] : List Nat).length)] ∧
    ([5] : List Nat).length =
      read_result_size (invokeMem argCarryingGuest [42])
        (invokeResultAddress argCarryingGuest [42]) ∧
    ([5] : List Nat).length + 4 =
      guestResultAllocSize (invokeMem argCarryingGuest [42])
        (invokeResultAddress argCarryingGuest [42]) ∧
    allocEvents [AbiEvent.alloc 1 6, AbiEvent.write 6 [42],
        AbiEvent.invokeCall 6 1, AbiEvent.dealloc 0 1] =
      (if ([42] : List Nat).length ≠ 0 then
        [(([42] : List Nat).length, argCarryingGuest.allocate ([42] : List Nat).length)]
      else []) :=
  invoke_allocation_balance argCarryingGuest [42] [5]
    [AbiEvent.alloc 1 6, AbiEvent.write 6 [42],
     AbiEvent.invokeCall 6 1, AbiEvent.dealloc 0 1] (by decide)

/-- C10: for an empty argument slice, a successful invocation emits no
guest allocate call and no host write into guest memory before the core
call: the trace is exactly the core invoke entry call with argument
address 0 and argument size 0, followed by the single result
deallocation. -/
theorem invoke_empty_argument (g : Guest) (result : List Nat) (events : List AbiEvent)
    (h : moduleInvoke g [] = some (result, events)) :
    events = [AbiEvent.invokeCall 0 0,
        AbiEvent.dealloc (g.invokeRet 0 0) result.length] ∧
    allocEvents events = [] ∧ writeEvents events = [] := by
  obtain ⟨hr, he⟩ := invoke_events_shape g [] result events h
  subst he
  refine ⟨?_, ?_, ?_⟩ <;>
    simp [allocEvents, writeEvents, invokeArgAddress, invokeResultAddress]

/-- C10 witness: the theorem applied to a concrete guest whose result
block sits at address 1 with payload 8, 6, 4. -/
theorem invoke_empty_argument_witness :
    ([AbiEvent.invokeCall 0 0, AbiEvent.dealloc 1 3] : List AbiEvent) =
      [AbiEvent.invokeCall 0 0,
        AbiEvent.dealloc (emptyArgGuest.invokeRet 0 0) ([8, 6, 4] : List Nat).length] ∧
    allocEvents [AbiEvent.invokeCall 0 0, AbiEvent.dealloc 1 3] = [] ∧
    writeEvents [AbiEvent.invokeCall 0 0, AbiEvent.dealloc 1 3] = [] :=
  invoke_empty_argument emptyArgGuest [8, 6, 4]
    [AbiEvent.invokeCall 0 0, AbiEvent.dealloc 1 3] (by decide)

end Fce
